import Mathlib

/-!
Shallow embedding of the ESP32 lab sketches: the MQTT LED-dispatch callback,
the reconnect loop, the sensor/button telemetry paths, and the LCD clock
arithmetic.  Machine `unsigned long` arithmetic is modelled on `Nat` with an
explicit modulus `U32 = 2^32` where wraparound matters.
-/

/-- Modulus of the 32-bit `unsigned long` type used for `millis()` values. -/
def U32 : Nat := 4294967296

/-- C `unsigned` subtraction `a - b` on 32-bit values (wraps modulo `2^32`).
Arguments are `Nat` representatives; `b` is reduced first so the definition is
total on all of `Nat`. -/
def usub32 (a b : Nat) : Nat := (a + U32 - b % U32) % U32

/-- Arduino `HIGH` digital level. -/
def HIGH : Int := 1

/-- Arduino `LOW` digital level. -/
def LOW : Int := 0

/-- GPIO pin for the red LED (`const int redLEDPin = 26`). -/
def redLEDPin : Int := 26

/-- GPIO pin for the green LED (`const int greenLEDPin = 27`). -/
def greenLEDPin : Int := 27

/-- GPIO pin for the blue LED (`const int blueLEDPin = 14`). -/
def blueLEDPin : Int := 14

/-- GPIO pin for the yellow LED (`const int yellowLEDPin = 12`). -/
def yellowLEDPin : Int := 12

/-- Inbound topic for the red LED. -/
def mqtt_topic_red : String := "ttpu/iot/maqsud/led/red"

/-- Inbound topic for the green LED. -/
def mqtt_topic_green : String := "ttpu/iot/maqsud/led/green"

/-- Inbound topic for the blue LED. -/
def mqtt_topic_blue : String := "ttpu/iot/maqsud/led/blue"

/-- Inbound topic for the yellow LED. -/
def mqtt_topic_yellow : String := "ttpu/iot/maqsud/led/yellow"

/-- JSON values as produced by `deserializeJson`. -/
inductive JsonVal where
  | str (s : String)
  | num (n : Int)
  | boolean (b : Bool)
  | null
  | arr (elems : List JsonVal)
  | obj (members : List (String × JsonVal))

/-- First member of an object with the given key (`doc["key"]` on a parsed
document returns the first matching member, or null when absent). -/
def lookupMember : List (String × JsonVal) → String → Option JsonVal
  | [], _ => none
  | (k, v) :: rest, key => if k = key then some v else lookupMember rest key

/-- The `state` member of the document when it is present and holds a string:
this is `doc["state"].is<const char*>() ? doc["state"].as<const char*>() :
nullptr` from `mqttCallback`.  `none` models a null result (root not an
object, member absent, or member not a string). -/
def stateField : JsonVal → Option String
  | JsonVal.obj members =>
    match lookupMember members "state" with
    | some (JsonVal.str s) => some s
    | _ => none
  | _ => none

/-- Level of every GPIO pin; state of the actuator bank. -/
def PinLevels : Type := Int → Int

/-- The topic-to-pin chain of `mqttCallback`: `chosenLED` starts at the
sentinel `-1` and is set by the first matching equality test among the four
inbound LED topics. -/
def chosenLED (topic : String) : Int :=
  if topic = mqtt_topic_red then redLEDPin
  else if topic = mqtt_topic_green then greenLEDPin
  else if topic = mqtt_topic_blue then blueLEDPin
  else if topic = mqtt_topic_yellow then yellowLEDPin
  else -1

/-- The `ledState` computation of `mqttCallback`: `state_val` is the string
form of the `state` member (empty when absent or not a string), mapped to
`HIGH` for exactly `"ON"`, `LOW` for exactly `"OFF"`, and the sentinel `-1`
otherwise. -/
def ledStateOf (doc : JsonVal) : Int :=
  let state_val : String :=
    match stateField doc with
    | some s => s
    | none => ""
  if state_val = "ON" then HIGH
  else if state_val = "OFF" then LOW
  else -1

/-- The MQTT message callback of the LED sketches.  The payload argument is
the outcome of `deserializeJson`: `none` models a `DeserializationError`
(the code logs and returns, changing nothing).  A `digitalWrite` happens
only when both the topic matched (`chosenLED ≠ -1`) and the state string was
recognised (`ledState ≠ -1`). -/
def mqttCallback (topic : String) (payload : Option JsonVal)
    (pins : PinLevels) : PinLevels :=
  let chosen : Int := chosenLED topic
  match payload with
  | none => pins
  | some doc =>
    let ledState : Int := ledStateOf doc
    if chosen ≠ -1 ∧ ledState ≠ -1 then Function.update pins chosen ledState
    else pins

/-- The routing decision embedded in `mqttCallback`, viewed as the spec's
`route : topic × payload → Option Command`: the command `(pin, level)` that
the callback would write, when it writes one. -/
def route (topic : String) (payload : Option JsonVal) :
    Option (Int × Int) :=
  let chosen : Int := chosenLED topic
  match payload with
  | none => none
  | some doc =>
    let ledState : Int := ledStateOf doc
    if chosen ≠ -1 ∧ ledState ≠ -1 then some (chosen, ledState)
    else none

/-- A payload whose `state` member is the string `"ON"`. -/
def docOn : JsonVal := JsonVal.obj [("state", JsonVal.str "ON")]

/-- A payload whose `state` member is the string `"OFF"`. -/
def docOff : JsonVal := JsonVal.obj [("state", JsonVal.str "OFF")]

/-- An all-low pin bank, as after `setup()`. -/
def zeroPins : PinLevels := fun _ => LOW

/-- State of the button path of the telemetry sketch: the two `static`
locals `lastButtonState` (initially `LOW`, modelled as `false`) and
`lastDebounceTime` (initially `0`). -/
structure ButtonState where
  lastButtonState : Bool
  lastDebounceTime : Nat
deriving DecidableEq

/-- One pass of the button-event block of the telemetry sketch's `loop`:
given the current `millis()` value and the raw level from
`digitalRead(buttonPin)` (`true` = `HIGH`), the transition is accepted when
the raw level differs from the last accepted level and strictly more than
100 ms (unsigned subtraction) have elapsed since the last accepted
transition; on acceptance both statics are updated and a `ButtonEdge` event
(string and timestamp) is published. -/
def buttonStep (s : ButtonState) (now : Nat) (raw : Bool) :
    ButtonState × Option (String × Nat) :=
  if raw ≠ s.lastButtonState ∧ 100 < usub32 now s.lastDebounceTime then
    (⟨raw, now⟩, some ((if raw then "pressed" else "released"), now))
  else
    (s, none)

/-- Iterated button path: one `loop` pass per `(millis, raw level)` sample,
collecting the published `ButtonEdge` events in order. -/
def buttonRun (s : ButtonState) :
    List (Nat × Bool) → ButtonState × List (String × Nat)
  | [] => (s, [])
  | (now, raw) :: rest =>
    let step := buttonStep s now raw
    let r := buttonRun step.1 rest
    (r.1,
      match step.2 with
      | some e => e :: r.2
      | none => r.2)

/-- Well-formed `millis()` samples seen from a debounce timestamp `ldt`:
times are nondecreasing, below `2^32`, and the first is at least `ldt`
(so the unsigned subtractions in the trace never wrap). -/
def timesOk : Nat → List (Nat × Bool) → Bool
  | _, [] => true
  | ldt, (t, _) :: rest => decide (ldt ≤ t) && decide (t < U32) && timesOk t rest

/-- One pass of the button block of the exercise-1 sketch: a transition is
accepted whenever the raw level differs from the last accepted level — no
time check; the 100 ms `delay` comes only after publishing. -/
def ex1ButtonStep (lastButtonState raw : Bool) : Bool × Option String :=
  if raw ≠ lastButtonState then
    (raw, some (if raw then "pressed" else "released"))
  else
    (lastButtonState, none)

/-- Iterated exercise-1 button path over a list of raw levels. -/
def ex1ButtonRun (s : Bool) : List Bool → Bool × List String
  | [] => (s, [])
  | raw :: rest =>
    let step := ex1ButtonStep s raw
    let r := ex1ButtonRun step.1 rest
    (r.1,
      match step.2 with
      | some e => e :: r.2
      | none => r.2)

/-- Fixed sensor publish interval (`const unsigned long sensorReadInterval =
5000`). -/
def sensorReadInterval : Nat := 5000

/-- One pass of the sensor block of the telemetry sketch's `loop`: publish
exactly when `currentTime - lastSensorReadTime >= sensorReadInterval`
(unsigned subtraction); on publish the static `lastSensorReadTime`
(initially `0`) is set to `currentTime`.  Returns the new timestamp and
whether a publish was triggered. -/
def sensorStep (lastSensorReadTime now : Nat) : Nat × Bool :=
  if sensorReadInterval ≤ usub32 now lastSensorReadTime then (now, true)
  else (lastSensorReadTime, false)

/-- Externally visible actions of the connectivity code, in program order. -/
inductive MqttAction where
  | connectAttempt (ok : Bool)
  | subscribe (topic : String)
  | delayMs (ms : Nat)
  | drainMessages
deriving DecidableEq

/-- The four inbound LED topics, in the order `connectMQTT` subscribes to
them. -/
def inboundTopics : List String :=
  [mqtt_topic_red, mqtt_topic_green, mqtt_topic_blue, mqtt_topic_yellow]

/-- The `while (!mqtt_client.connected())` loop of `connectMQTT`, driven by
the environment's response to each `connect` call (one `Bool` per attempt;
the list is the fuel — an empty remainder means the loop is still running).
A successful attempt subscribes to all four inbound topics and exits; a
failed one delays 5000 ms and retries.  Returns the emitted actions and
whether the function has returned (connected). -/
def connectMQTT : List Bool → List MqttAction × Bool
  | [] => ([], false)
  | ok :: rest =>
    if ok then
      (MqttAction.connectAttempt true :: inboundTopics.map MqttAction.subscribe,
        true)
    else
      let r := connectMQTT rest
      (MqttAction.connectAttempt false :: MqttAction.delayMs 5000 :: r.1, r.2)

/-- Action trace of one `loop()` iteration as far as MQTT is concerned: when
the client is not connected, `connectMQTT` runs first; then
`mqtt_client.loop()` drains (and routes) the buffered inbound messages. -/
def loopIterActions (mqttConnected : Bool) (attempts : List Bool) :
    List MqttAction :=
  (if mqttConnected then [] else (connectMQTT attempts).1) ++
    [MqttAction.drainMessages]

/-- Start-of-clock constants of the LCD sketch. -/
def START_YEAR : Nat := 2025

/-- Start month of the LCD clock. -/
def START_MONTH : Nat := 1

/-- Start day of the LCD clock. -/
def START_DAY : Nat := 15

/-- Start hour of the LCD clock. -/
def START_HOUR : Nat := 10

/-- Start minute of the LCD clock. -/
def START_MINUTE : Nat := 30

/-- Start second of the LCD clock. -/
def START_SECOND : Nat := 0

/-- The `while (day > 30) { day -= 30; month++; if (month > 12) { month = 1;
year++; } }` overflow loop of `calculateCurrentTime`. -/
def normalizeDate (day month year : Nat) : Nat × Nat × Nat :=
  if h : 30 < day then
    if 12 < month + 1 then normalizeDate (day - 30) 1 (year + 1)
    else normalizeDate (day - 30) (month + 1) year
  else
    (day, month, year)
termination_by day
decreasing_by all_goals omega

/-- Result record of `calculateCurrentTime` (its six by-reference `int`
outputs). -/
structure TimeParts where
  hour : Nat
  minute : Nat
  second : Nat
  day : Nat
  month : Nat
  year : Nat

/-- The `calculateCurrentTime` function of the LCD sketch.  `totalSeconds`
is an `unsigned long`, so the sum is reduced modulo `2^32`; the quotients
that follow stay far below any `int` bound, so `Nat` models them exactly. -/
def calculateCurrentTime (elapsedSeconds : Nat) : TimeParts :=
  let totalSeconds :=
    (START_HOUR * 3600 + START_MINUTE * 60 + START_SECOND + elapsedSeconds) % U32
  let second := totalSeconds % 60
  let totalMinutes := totalSeconds / 60
  let minute := totalMinutes % 60
  let totalHours := totalMinutes / 60
  let hour := totalHours % 24
  let totalDays := totalHours / 24
  let d := normalizeDate (START_DAY + totalDays) START_MONTH START_YEAR
  ⟨hour, minute, second, d.1, d.2.1, d.2.2⟩

theorem mqttCallback_eq_route (topic : String) (payload : Option JsonVal)
    (pins : PinLevels) :
    mqttCallback topic payload pins =
      match route topic payload with
      | some (p, l) => Function.update pins p l
      | none => pins := by
  cases payload with
  | none => rfl
  | some doc =>
    simp only [mqttCallback, route]
    by_cases h : chosenLED topic ≠ -1 ∧ ledStateOf doc ≠ -1
    · simp [h]
    · simp [h]

theorem route_some (topic : String) (doc : JsonVal) :
    route topic (some doc) =
      if chosenLED topic ≠ -1 ∧ ledStateOf doc ≠ -1 then
        some (chosenLED topic, ledStateOf doc)
      else none := rfl

theorem mqttCallback_some (topic : String) (doc : JsonVal) (pins : PinLevels) :
    mqttCallback topic (some doc) pins =
      if chosenLED topic ≠ -1 ∧ ledStateOf doc ≠ -1 then
        Function.update pins (chosenLED topic) (ledStateOf doc)
      else pins := rfl

theorem ledStateOf_on (doc : JsonVal) (h : stateField doc = some "ON") :
    ledStateOf doc = HIGH := by
  simp [ledStateOf, h]

theorem ledStateOf_off (doc : JsonVal) (h : stateField doc = some "OFF") :
    ledStateOf doc = LOW := by
  simp [ledStateOf, h]

theorem ledStateOf_other (doc : JsonVal) (h1 : stateField doc ≠ some "ON")
    (h2 : stateField doc ≠ some "OFF") : ledStateOf doc = -1 := by
  unfold ledStateOf
  cases hs : stateField doc with
  | none => decide
  | some s =>
    have hs1 : s ≠ "ON" := fun he => h1 (by rw [hs, he])
    have hs2 : s ≠ "OFF" := fun he => h2 (by rw [hs, he])
    simp [hs1, hs2]

/-- C1: for an inbound message on a topic of the inbound LED set (mapped by
the table to pin `p`), a well-formed payload whose `state` member is exactly
the string `"ON"` routes to the command `(p, HIGH)` and the callback drives
pin `p` high; `"OFF"` likewise drives it low; any other `state` value
(non-string values, other casing) or a missing `state` member yields no
command and leaves every pin unchanged. -/
theorem led_dispatch (topic : String) (p : Int) (doc : JsonVal)
    (pins : PinLevels) (hp : chosenLED topic = p) (hne : p ≠ -1) :
    (stateField doc = some "ON" →
      route topic (some doc) = some (p, HIGH) ∧
      mqttCallback topic (some doc) pins = Function.update pins p HIGH ∧
      mqttCallback topic (some doc) pins p = HIGH) ∧
    (stateField doc = some "OFF" →
      route topic (some doc) = some (p, LOW) ∧
      mqttCallback topic (some doc) pins = Function.update pins p LOW ∧
      mqttCallback topic (some doc) pins p = LOW) ∧
    (stateField doc ≠ some "ON" → stateField doc ≠ some "OFF" →
      route topic (some doc) = none ∧
      mqttCallback topic (some doc) pins = pins) := by
  refine ⟨?_, ?_, ?_⟩
  · intro hs
    have hl := ledStateOf_on doc hs
    have hcond : chosenLED topic ≠ -1 ∧ ledStateOf doc ≠ -1 := by
      rw [hp, hl]; exact ⟨hne, by decide⟩
    have hw : mqttCallback topic (some doc) pins = Function.update pins p HIGH := by
      rw [mqttCallback_some, if_pos hcond, hp, hl]
    refine ⟨by rw [route_some, if_pos hcond, hp, hl], hw, by rw [hw]; simp⟩
  · intro hs
    have hl := ledStateOf_off doc hs
    have hcond : chosenLED topic ≠ -1 ∧ ledStateOf doc ≠ -1 := by
      rw [hp, hl]; exact ⟨hne, by decide⟩
    have hw : mqttCallback topic (some doc) pins = Function.update pins p LOW := by
      rw [mqttCallback_some, if_pos hcond, hp, hl]
    refine ⟨by rw [route_some, if_pos hcond, hp, hl], hw, by rw [hw]; simp⟩
  · intro h1 h2
    have hl := ledStateOf_other doc h1 h2
    have hcond : ¬(chosenLED topic ≠ -1 ∧ ledStateOf doc ≠ -1) := by
      rw [hl]; simp
    exact ⟨by rw [route_some, if_neg hcond],
      by rw [mqttCallback_some, if_neg hcond]⟩

theorem led_dispatch_witness :
    route mqtt_topic_red (some docOn) = some (redLEDPin, HIGH) ∧
    mqttCallback mqtt_topic_red (some docOn) zeroPins redLEDPin = HIGH ∧
    route mqtt_topic_red (some docOff) = some (redLEDPin, LOW) := by
  have H := led_dispatch mqtt_topic_red redLEDPin docOn zeroPins
    (by decide) (by decide)
  have H2 := led_dispatch mqtt_topic_red redLEDPin docOff zeroPins
    (by decide) (by decide)
  exact ⟨(H.1 (by decide)).1, (H.1 (by decide)).2.2, (H2.2.1 (by decide)).1⟩

/-- C5: a payload that fails to parse (`deserializeJson` error, modelled as
`none`) is discarded: no command is produced and no pin changes; the
callback returns normally (total function), so the error is absorbed, not
propagated. -/
theorem malformed_payload_ignored (topic : String) (pins : PinLevels) :
    route topic none = none ∧ mqttCallback topic none pins = pins :=
  ⟨rfl, rfl⟩

/-- C6: for a topic that matches none of the four inbound LED topics
(`chosenLED` stays at the sentinel `-1`), routing yields no command and no
pin changes, whatever the payload — even a valid ON/OFF record. -/
theorem unmatched_topic_ignored (topic : String) (payload : Option JsonVal)
    (pins : PinLevels) (h : chosenLED topic = -1) :
    route topic payload = none ∧ mqttCallback topic payload pins = pins := by
  cases payload with
  | none => exact ⟨rfl, rfl⟩
  | some doc =>
    have hcond : ¬(chosenLED topic ≠ -1 ∧ ledStateOf doc ≠ -1) := by
      rw [h]; simp
    exact ⟨by rw [route_some, if_neg hcond],
      by rw [mqttCallback_some, if_neg hcond]⟩

theorem unmatched_topic_ignored_witness :
    route "ttpu/iot/maqsud/led/purple" (some docOn) = none ∧
    mqttCallback "ttpu/iot/maqsud/led/purple" (some docOn) zeroPins =
      zeroPins :=
  unmatched_topic_ignored "ttpu/iot/maqsud/led/purple" (some docOn) zeroPins
    (by decide)

/-- C9: one inbound message writes at most the single pin mapped from its
topic: every pin different from `chosenLED topic` keeps its previous level,
so a single message never changes two or more LED outputs. -/
theorem mqttCallback_frame (topic : String) (payload : Option JsonVal)
    (pins : PinLevels) (q : Int) (hq : q ≠ chosenLED topic) :
    mqttCallback topic payload pins q = pins q := by
  cases payload with
  | none => rfl
  | some doc =>
    rw [mqttCallback_some]
    by_cases hcond : chosenLED topic ≠ -1 ∧ ledStateOf doc ≠ -1
    · rw [if_pos hcond, Function.update_noteq hq]
    · rw [if_neg hcond]

theorem mqttCallback_frame_witness :
    mqttCallback mqtt_topic_red (some docOn) zeroPins greenLEDPin =
      zeroPins greenLEDPin :=
  mqttCallback_frame mqtt_topic_red (some docOn) zeroPins greenLEDPin
    (by decide)

theorem usub32_eq_sub (a b : Nat) (hba : b ≤ a) (ha : a < U32) :
    usub32 a b = a - b := by
  unfold usub32
  have hb : b % U32 = b := Nat.mod_eq_of_lt (lt_of_le_of_lt hba ha)
  rw [hb]
  have h1 : a + U32 - b = (a - b) + U32 := by omega
  rw [h1, Nat.add_mod_right]
  exact Nat.mod_eq_of_lt (by omega)

theorem timesOk_mono (t t' : Nat) (l : List (Nat × Bool)) (hle : t' ≤ t)
    (h : timesOk t l = true) : timesOk t' l = true := by
  cases l with
  | nil => rfl
  | cons x rest =>
    obtain ⟨tx, bx⟩ := x
    simp only [timesOk, Bool.and_eq_true, decide_eq_true_eq] at h ⊢
    exact ⟨⟨le_trans hle h.1.1, h.1.2⟩, h.2⟩

theorem buttonRun_events_spaced (trace : List (Nat × Bool)) :
    ∀ s : ButtonState, s.lastDebounceTime < U32 →
      timesOk s.lastDebounceTime trace = true →
      (∀ e ∈ (buttonRun s trace).2, s.lastDebounceTime + 100 < e.2) ∧
      ((buttonRun s trace).2.map Prod.snd).Pairwise
        (fun a b => a + 100 < b) := by
  induction trace with
  | nil =>
    intro s _ _
    constructor
    · intro e he
      simp [buttonRun] at he
    · simp [buttonRun]
  | cons x rest ih =>
    obtain ⟨now, raw⟩ := x
    intro s hs hok
    simp only [timesOk, Bool.and_eq_true, decide_eq_true_eq] at hok
    obtain ⟨⟨hle, hlt⟩, hokrest⟩ := hok
    by_cases hacc : raw ≠ s.lastButtonState ∧ 100 < usub32 now s.lastDebounceTime
    · have hstep : buttonStep s now raw =
          (⟨raw, now⟩, some ((if raw then "pressed" else "released"), now)) := by
        unfold buttonStep
        rw [if_pos hacc]
      have hgap : s.lastDebounceTime + 100 < now := by
        have h2 := hacc.2
        rw [usub32_eq_sub now s.lastDebounceTime hle hlt] at h2
        omega
      have ihres := ih ⟨raw, now⟩ hlt hokrest
      have hrun : buttonRun s ((now, raw) :: rest) =
          ((buttonRun ⟨raw, now⟩ rest).1,
            ((if raw then "pressed" else "released"), now) ::
              (buttonRun ⟨raw, now⟩ rest).2) := by
        simp [buttonRun, hstep]
      rw [hrun]
      constructor
      · intro e he
        rcases List.mem_cons.mp he with h1 | h2
        · rw [h1]
          exact hgap
        · have h3 : now + 100 < e.2 := ihres.1 e h2
          omega
      · simp only [List.map_cons]
        refine List.Pairwise.cons ?_ ihres.2
        intro b hb
        obtain ⟨e, he, hbe⟩ := List.mem_map.mp hb
        have h3 : now + 100 < e.2 := ihres.1 e he
        omega
    · have hstep : buttonStep s now raw = (s, none) := by
        unfold buttonStep
        rw [if_neg hacc]
      have hokrest2 : timesOk s.lastDebounceTime rest = true :=
        timesOk_mono now s.lastDebounceTime rest hle hokrest
      have ihres := ih s hs hokrest2
      have hrun : buttonRun s ((now, raw) :: rest) = buttonRun s rest := by
        simp [buttonRun, hstep]
      rw [hrun]
      exact ihres

/-- C2: in the telemetry sketch's button path, a tick is accepted (state
updated and a `ButtonEdge` published) only if the raw level differs from
the last accepted level and at least 100 ms have elapsed (unsigned
subtraction) since the last accepted transition; consequently, over any
trace of well-formed `millis()` samples, accepted events are spaced more
than 100 ms apart, so two raw transitions less than 100 ms apart yield at
most one accepted event. -/
theorem button_debounce (s : ButtonState) (trace : List (Nat × Bool))
    (hs : s.lastDebounceTime < U32)
    (hok : timesOk s.lastDebounceTime trace = true) :
    (∀ (now : Nat) (raw : Bool) (s1 : ButtonState) (e : String × Nat),
        buttonStep s now raw = (s1, some e) →
        raw ≠ s.lastButtonState ∧ 100 ≤ usub32 now s.lastDebounceTime) ∧
    ((buttonRun s trace).2.map Prod.snd).Pairwise
      (fun a b => a + 100 < b) := by
  constructor
  · intro now raw s1 e hstep
    by_cases hacc : raw ≠ s.lastButtonState ∧ 100 < usub32 now s.lastDebounceTime
    · exact ⟨hacc.1, le_of_lt hacc.2⟩
    · unfold buttonStep at hstep
      rw [if_neg hacc] at hstep
      injection hstep with h1 h2
      exact Option.noConfusion h2
  · exact (buttonRun_events_spaced trace s hs hok).2

theorem button_debounce_witness :
    true ≠ (ButtonState.mk false 0).lastButtonState ∧
      100 ≤ usub32 150 (ButtonState.mk false 0).lastDebounceTime :=
  (button_debounce ⟨false, 0⟩ [(150, true), (200, false)] (by decide)
      (by decide)).1
    150 true ⟨true, 150⟩ ("pressed", 150) (by decide)

/-- C8: the two button implementations are not equivalent.  On the raw
input that is first sampled high at 50 ms after boot, the telemetry sketch
(initial statics `lastButtonState = LOW`, `lastDebounceTime = 0`) accepts
nothing — 50 ms have elapsed, not more than 100 — while the exercise-1
variant, which has no time check, immediately accepts a "pressed" event:
the accepted-event sequences differ. -/
theorem button_variants_differ :
    (buttonRun ⟨false, 0⟩ [(50, true)]).2.map Prod.fst = ([] : List String) ∧
    (ex1ButtonRun false [true]).2 = ["pressed"] ∧
    (buttonRun ⟨false, 0⟩ [(50, true)]).2.map Prod.fst ≠
      (ex1ButtonRun false [true]).2 := by
  refine ⟨by decide, by decide, by decide⟩

/-- C4 counterexample: with the sensor path's last-publish timestamp in its
startup state (`lastSensorReadTime = 0`), a tick at t = 0 does NOT trigger
a publish — `0 - 0 >= 5000` is false — contradicting the claim that the
t = 0 tick publishes. -/
theorem sensor_tick_zero_no_publish : ¬(sensorStep 0 0).2 = true := by
  decide

/-- C4 amended: from the startup state, ticks at t = 0 and t = 4999 ms do
not publish (interval not yet elapsed since timestamp 0), and the tick at
t = 5000 ms triggers the FIRST publish, updating the timestamp. -/
theorem sensor_publish_schedule :
    sensorStep 0 0 = (0, false) ∧ sensorStep 0 4999 = (0, false) ∧
    sensorStep 0 5000 = (5000, true) := by
  refine ⟨by decide, by decide, by decide⟩

theorem connectMQTT_subscribes_all (attempts : List Bool)
    (h : (connectMQTT attempts).2 = true) :
    ∀ t ∈ inboundTopics,
      MqttAction.subscribe t ∈ (connectMQTT attempts).1 := by
  induction attempts with
  | nil => simp [connectMQTT] at h
  | cons ok rest ih =>
    cases ok with
    | true =>
      intro t ht
      have h1 : (connectMQTT (true :: rest)).1 =
          MqttAction.connectAttempt true ::
            inboundTopics.map MqttAction.subscribe := rfl
      rw [h1]
      exact List.mem_cons_of_mem _ (List.mem_map_of_mem _ ht)
    | false =>
      have h2 : (connectMQTT (false :: rest)).2 = (connectMQTT rest).2 := rfl
      rw [h2] at h
      intro t ht
      have h1 : (connectMQTT (false :: rest)).1 =
          MqttAction.connectAttempt false :: MqttAction.delayMs 5000 ::
            (connectMQTT rest).1 := rfl
      rw [h1]
      exact List.mem_cons_of_mem _ (List.mem_cons_of_mem _ (ih h t ht))

/-- C3: whenever `connectMQTT` returns with the broker session connected,
its action trace contains a subscription for every topic of the inbound set
(all four LED topics); within a loop iteration that had to reconnect, those
subscribe actions are exactly the prefix before the message drain — the
drain is the iteration's last action — so every topic is resubscribed
before any further inbound message is routed. -/
theorem connect_resubscribes (attempts : List Bool)
    (h : (connectMQTT attempts).2 = true) :
    (∀ t ∈ inboundTopics,
      MqttAction.subscribe t ∈ (connectMQTT attempts).1) ∧
    (loopIterActions false attempts).dropLast = (connectMQTT attempts).1 ∧
    (loopIterActions false attempts).getLast? =
      some MqttAction.drainMessages := by
  refine ⟨connectMQTT_subscribes_all attempts h, ?_, ?_⟩
  · simp [loopIterActions]
  · simp [loopIterActions]

theorem connect_resubscribes_witness :
    MqttAction.subscribe mqtt_topic_red ∈ (connectMQTT [false, true]).1 ∧
    MqttAction.subscribe mqtt_topic_green ∈ (connectMQTT [false, true]).1 ∧
    MqttAction.subscribe mqtt_topic_blue ∈ (connectMQTT [false, true]).1 ∧
    MqttAction.subscribe mqtt_topic_yellow ∈ (connectMQTT [false, true]).1 := by
  have H := connect_resubscribes [false, true] (by decide)
  exact ⟨H.1 _ (by decide), H.1 _ (by decide), H.1 _ (by decide),
    H.1 _ (by decide)⟩

theorem connectMQTT_connected_iff (attempts : List Bool) :
    (connectMQTT attempts).2 = true ↔ true ∈ attempts := by
  induction attempts with
  | nil => simp [connectMQTT]
  | cons ok rest ih =>
    cases ok with
    | true =>
      have h2 : (connectMQTT (true :: rest)).2 = true := rfl
      simp [h2]
    | false =>
      have h2 : (connectMQTT (false :: rest)).2 = (connectMQTT rest).2 := rfl
      rw [h2]
      simp [ih]

theorem connectMQTT_delay_fixed (attempts : List Bool) :
    ∀ ms : Nat, MqttAction.delayMs ms ∈ (connectMQTT attempts).1 →
      ms = 5000 := by
  induction attempts with
  | nil =>
    intro ms hm
    simp [connectMQTT] at hm
  | cons ok rest ih =>
    cases ok with
    | true =>
      intro ms hm
      have h1 : (connectMQTT (true :: rest)).1 =
          MqttAction.connectAttempt true ::
            inboundTopics.map MqttAction.subscribe := rfl
      rw [h1] at hm
      simp [inboundTopics] at hm
    | false =>
      intro ms hm
      have h1 : (connectMQTT (false :: rest)).1 =
          MqttAction.connectAttempt false :: MqttAction.delayMs 5000 ::
            (connectMQTT rest).1 := rfl
      rw [h1] at hm
      rcases List.mem_cons.mp hm with h | h
      · exact absurd h (by simp)
      · rcases List.mem_cons.mp h with h2 | h2
        · injection h2 with h3
        · exact ih ms h2

/-- C7: the `connectMQTT` retry loop uses a fixed 5000 ms delay (every delay
action it emits is exactly 5000 ms), returns connected exactly when some
connect attempt succeeded (postcondition: connected on return, never a
terminal error), and when every attempt fails it has not returned under any
amount of fuel — it loops forever. -/
theorem connectMQTT_retry_unbounded (attempts : List Bool) :
    ((connectMQTT attempts).2 = true ↔ true ∈ attempts) ∧
    (∀ ms : Nat, MqttAction.delayMs ms ∈ (connectMQTT attempts).1 →
      ms = 5000) ∧
    ((∀ a ∈ attempts, a = false) → (connectMQTT attempts).2 = false) := by
  refine ⟨connectMQTT_connected_iff attempts,
    connectMQTT_delay_fixed attempts, ?_⟩
  intro hall
  cases hc : (connectMQTT attempts).2 with
  | false => rfl
  | true =>
    have hmem := (connectMQTT_connected_iff attempts).mp hc
    have hfalse := hall true hmem
    simp at hfalse

theorem connectMQTT_retry_unbounded_witness :
    (connectMQTT [false, false]).2 = false :=
  (connectMQTT_retry_unbounded [false, false]).2.2 (by decide)

theorem normalizeDate_bounds (day : Nat) :
    ∀ month year : Nat, 1 ≤ day → 1 ≤ month → month ≤ 12 →
      1 ≤ (normalizeDate day month year).1 ∧
      (normalizeDate day month year).1 ≤ 30 ∧
      1 ≤ (normalizeDate day month year).2.1 ∧
      (normalizeDate day month year).2.1 ≤ 12 := by
  induction day using Nat.strong_induction_on with
  | _ day ih =>
    intro month year hd hm1 hm2
    unfold normalizeDate
    by_cases h : 30 < day
    · rw [dif_pos h]
      by_cases h12 : 12 < month + 1
      · rw [if_pos h12]
        exact ih (day - 30) (by omega) 1 (year + 1) (by omega) (by omega)
          (by omega)
      · rw [if_neg h12]
        exact ih (day - 30) (by omega) (month + 1) year (by omega) (by omega)
          (by omega)
    · rw [dif_neg h]
      exact ⟨hd, by omega, hm1, hm2⟩

/-- C10: for every value of `elapsedSeconds`, `calculateCurrentTime` is
total (the overflow loop terminates) and its outputs are in range: second
and minute in `[0, 59]`, hour in `[0, 23]`, day in `[1, 30]` under the
30-day-month simplification with start day 15, and month in `[1, 12]`. -/
theorem calculateCurrentTime_in_range (elapsedSeconds : Nat) :
    (calculateCurrentTime elapsedSeconds).second ≤ 59 ∧
    (calculateCurrentTime elapsedSeconds).minute ≤ 59 ∧
    (calculateCurrentTime elapsedSeconds).hour ≤ 23 ∧
    1 ≤ (calculateCurrentTime elapsedSeconds).day ∧
    (calculateCurrentTime elapsedSeconds).day ≤ 30 ∧
    1 ≤ (calculateCurrentTime elapsedSeconds).month ∧
    (calculateCurrentTime elapsedSeconds).month ≤ 12 := by
  have hsec : (calculateCurrentTime elapsedSeconds).second =
      (START_HOUR * 3600 + START_MINUTE * 60 + START_SECOND + elapsedSeconds)
        % U32 % 60 := rfl
  have hmin : (calculateCurrentTime elapsedSeconds).minute =
      (START_HOUR * 3600 + START_MINUTE * 60 + START_SECOND + elapsedSeconds)
        % U32 / 60 % 60 := rfl
  have hhour : (calculateCurrentTime elapsedSeconds).hour =
      (START_HOUR * 3600 + START_MINUTE * 60 + START_SECOND + elapsedSeconds)
        % U32 / 60 / 60 % 24 := rfl
  have hday : (calculateCurrentTime elapsedSeconds).day =
      (normalizeDate
        (START_DAY +
          (START_HOUR * 3600 + START_MINUTE * 60 + START_SECOND +
            elapsedSeconds) % U32 / 60 / 60 / 24)
        START_MONTH START_YEAR).1 := rfl
  have hmonth : (calculateCurrentTime elapsedSeconds).month =
      (normalizeDate
        (START_DAY +
          (START_HOUR * 3600 + START_MINUTE * 60 + START_SECOND +
            elapsedSeconds) % U32 / 60 / 60 / 24)
        START_MONTH START_YEAR).2.1 := rfl
  have hb := normalizeDate_bounds
    (START_DAY +
      (START_HOUR * 3600 + START_MINUTE * 60 + START_SECOND +
        elapsedSeconds) % U32 / 60 / 60 / 24)
    START_MONTH START_YEAR
    (by simp only [START_DAY]; omega)
    (by simp only [START_MONTH]; omega)
    (by simp only [START_MONTH]; omega)
  refine ⟨?_, ?_, ?_, ?_, ?_, ?_, ?_⟩
  · rw [hsec]; omega
  · rw [hmin]; omega
  · rw [hhour]; omega
  · rw [hday]; exact hb.1
  · rw [hday]; exact hb.2.1
  · rw [hmonth]; exact hb.2.2.1
  · rw [hmonth]; exact hb.2.2.2
